import Mathlib

/-!
Shallow embedding of `itzg/easy-add` (`src/main.go`, the richest variant:
templated variables, tar.gz-only extraction, custom trust store).

Conventions of the embedding:
* byte contents are `List Nat`;
* the gzip-wrapped tar stream is modelled by `GzTarStream`: `gzipErr` is the
  error `gzip.NewReader` would return (`none` when the gzip header is valid),
  `entries` are the tar entries `tar.Reader.Next` yields successfully in
  archive order, and `term` is what `Next` returns after the last entry
  (`eof` for a clean end of archive, `errOther` for every non-EOF error,
  e.g. a corrupt or truncated tar header);
* the filesystem is a flat map from cleaned paths to file states plus a set
  of existing directories; `os.OpenFile` with `O_WRONLY|O_CREATE` (no
  `O_EXCL`, no `O_TRUNC`) is modelled accordingly: an existing file is opened
  keeping its mode, writing from offset 0 without truncation; a fresh file
  requires its parent directory and receives the permission bits
  (`mode &&& 0o7777`, written `% 4096`) of the tar header, matching
  `header.FileInfo().Mode()` pushed through `syscallMode`;
* Go runtime panics (nil `*tar.Header` dereference, out-of-range index) are
  modelled by explicit `panicked` outcomes.
-/

namespace EasyAdd

/-- One tar header as read by `tar.Reader.Next`: recorded name, Unix mode
bits, and the type flag (`'0'` regular file, `'5'` directory, ...). -/
structure TarHeader where
  name : String
  mode : Nat
  typeflag : Char
deriving DecidableEq, Repr

/-- A tar entry: header plus the bytes of its data section. -/
structure TarEntry where
  header : TarHeader
  content : List Nat
deriving DecidableEq, Repr

/-- What `tar.Reader.Next` returns once the listed entries are exhausted:
`eof` is `io.EOF` (clean logical end of archive); `errOther` is any other
error (corrupt tar header, truncated stream, gzip checksum failure, ...). -/
inductive TarTerm where
  | eof : TarTerm
  | errOther : String → TarTerm
deriving DecidableEq, Repr

/-- The gzip-compressed tar stream handed to `processTarGz`. -/
structure GzTarStream where
  gzipErr : Option String
  entries : List TarEntry
  term : TarTerm
deriving DecidableEq, Repr

/-- State of one file on disk: content bytes and permission mode. -/
structure FileState where
  content : List Nat
  mode : Nat
deriving DecidableEq, Repr

/-- Flat filesystem model: existing directories and files. -/
structure FS where
  dirs : List String
  files : List (String × FileState)
deriving DecidableEq, Repr

def FS.lookupFile (fs : FS) (p : String) : Option FileState :=
  (fs.files.find? (fun e => e.1 == p)).map (·.2)

def FS.setFile (fs : FS) (p : String) (st : FileState) : FS :=
  { fs with files := (p, st) :: fs.files.filter (fun e => !(e.1 == p)) }

/-! ### Go `path` package (`Clean`, `Join`, `Base`, `Dir`), as used by
`extractExe` via `path.Join(to, path.Base(filename))`. -/

/-- Go `strings.Split` with a one-character separator. -/
def splitChar (sep : Char) : List Char → List (List Char)
  | [] => [[]]
  | c :: rest =>
    if c = sep then [] :: splitChar sep rest
    else
      match splitChar sep rest with
      | [] => [[c]]
      | h :: t => (c :: h) :: t

/-- Element processing of Go `path.Clean`: drop empty and `.` elements,
let `..` pop the previous element (or survive at the front of a relative
path, or vanish at the root of a rooted one). -/
def cleanComponents (rooted : Bool) (parts : List String) : List String :=
  parts.foldl
    (fun acc p =>
      if p = "" ∨ p = "." then acc
      else if p = ".." then
        if acc ≠ [] ∧ acc.getLast? ≠ some ".." then acc.dropLast
        else if rooted then acc
        else acc ++ [".."]
      else acc ++ [p])
    []

/-- Go `path.Clean`. -/
def pathClean (p : String) : String :=
  if p = "" then "."
  else
    let rooted := match p.data with | '/' :: _ => true | _ => false
    let comps := cleanComponents rooted ((splitChar '/' p.data).map List.asString)
    let out := String.intercalate "/" comps
    if rooted then (if out = "" then "/" else "/" ++ out)
    else (if out = "" then "." else out)

/-- Go `path.Join` restricted to two elements, as called by `extractExe`. -/
def pathJoin (a b : String) : String :=
  if a ≠ "" then pathClean (a ++ "/" ++ b)
  else if b ≠ "" then pathClean b
  else ""

/-- Go `path.Base`. -/
def pathBase (p : String) : String :=
  if p = "" then "."
  else
    let cs := (p.data.reverse.dropWhile (fun c => c == '/')).reverse
    if cs = [] then "/"
    else ((cs.reverse.takeWhile (fun c => !(c == '/'))).reverse).asString

/-- Go `path.Dir`: everything up to and including the final slash, cleaned. -/
def pathDir (p : String) : String :=
  pathClean ((p.data.reverse.dropWhile (fun c => !(c == '/'))).reverse).asString

/-! ### Extraction engine (`processTarGz`, `extractExe`) -/

/-- The errors `processTarGz`/`extractExe` return, with the message text
they are wrapped in. -/
inductive ProcError where
  | formatError : String → ProcError
  | notFound : ProcError
  | ioError : String → ProcError
  | copyError : String → ProcError
deriving DecidableEq, Repr

def ProcError.message : ProcError → String
  | .formatError c => "failed to read gzip content: " ++ c
  | .notFound => "unable to find requested file in archive"
  | .ioError c => "unable to create destination file: " ++ c
  | .copyError c => "unable to copy extracted file content: " ++ c

/-- Writing from offset 0 without `O_TRUNC`: the new bytes overwrite the
head of the old content, any longer tail survives. -/
def writeFromStart (old new : List Nat) : List Nat :=
  new ++ old.drop new.length

/-- `extractExe` (src/main.go:191-207): compute
`path.Join(to, path.Base(filename))`, open it with `O_WRONLY|O_CREATE` and
the permission of the matched header, and copy the entry content into it.
Opening a directory fails; opening an existing file succeeds and keeps the
existing mode; creating a fresh file requires the parent directory. -/
def extractExe (fs : FS) (content : List Nat) (filename toDir : String) (headerMode : Nat) :
    Except ProcError (FS × String) :=
  let outPath := pathJoin toDir (pathBase filename)
  if fs.dirs.contains outPath then
    Except.error (ProcError.ioError "is a directory")
  else
    match fs.lookupFile outPath with
    | some st =>
        Except.ok (fs.setFile outPath ⟨writeFromStart st.content content, st.mode⟩, outPath)
    | none =>
        if fs.dirs.contains (pathDir outPath) then
          Except.ok (fs.setFile outPath ⟨content, headerMode % 4096⟩, outPath)
        else
          Except.error (ProcError.ioError "no such file or directory")

/-- The tar scan loop of `processTarGz`: first entry whose recorded name
equals the requested path, by exact (case-sensitive) string equality. -/
def scanTar : List TarEntry → String → Option TarEntry
  | [], _ => none
  | e :: rest, file => if e.header.name = file then some e else scanTar rest file

/-- Outcome of `processTarGz`: success with the updated filesystem and the
output path, an error, or a Go runtime panic (the `header.Name` nil
dereference when `Next` returns a non-EOF error). -/
inductive ProcOutcome where
  | ok : FS → String → ProcOutcome
  | err : ProcError → ProcOutcome
  | panicked : ProcOutcome
deriving DecidableEq, Repr

/-- `processTarGz` (src/main.go:171-189): fail with the gzip error if
`gzip.NewReader` fails; otherwise scan headers in order. On the first
name match, hand the entry to `extractExe`. At `io.EOF` report the
not-found error. On any other error from `Next`, the Go code still reads
`header.Name` from the `nil` header: a panic. -/
def processTarGz (fs : FS) (s : GzTarStream) (file toDir : String) : ProcOutcome :=
  match s.gzipErr with
  | some m => ProcOutcome.err (ProcError.formatError m)
  | none =>
    match scanTar s.entries file with
    | some e =>
        match extractExe fs e.content file toDir e.header.mode with
        | Except.ok (fs1, p) => ProcOutcome.ok fs1 p
        | Except.error pe => ProcOutcome.err pe
    | none =>
        match s.term with
        | TarTerm.eof => ProcOutcome.err ProcError.notFound
        | TarTerm.errOther _ => ProcOutcome.panicked

/-! ### Archive type classifier (`isTarGz`) -/

/-- Go `strings.HasSuffix`. -/
def hasSuffix (s suffix : String) : Bool :=
  suffix.data.isSuffixOf s.data

/-- Go `strings.ToLower` (ASCII case folding suffices for the suffixes the
classifier compares against). -/
def toLowerStr (s : String) : String :=
  ⟨s.data.map Char.toLower⟩

/-- `isTarGz` (src/main.go:209-212). -/
def isTarGz (url : String) : Bool :=
  let u := toLowerStr url
  hasSuffix u ".tar.gz" || hasSuffix u ".tgz"

/-! ### Variable substitution (`evaluateFromTemplate`)

`evaluateFromTemplate` (src/main.go:135-148) parses its argument with Go
`html/template` and executes it against the variable map. The fragment of
that engine exercised here (and prescribed by the templates this program
documents) is literal text plus `\x7b\x7b.name\x7d\x7d` field actions; the
model below covers exactly that fragment:

* an action is `\x7b\x7b`, optional spaces/tabs, `.`, a nonempty
  alphanumeric/underscore name, optional spaces/tabs, `\x7d\x7d`;
  anything else after `\x7b\x7b` (including an unterminated action) is a
  parse error, as in `template.Parse`;
* executing a defined reference inserts the bound value HTML-escaped
  (html/template escapes `&lt; &gt; &amp;`, quotes and NUL in text context);
* executing a reference to a key absent from the map succeeds and inserts
  nothing: Go maps yield an invalid value for a missing key, and
  html/template's escapers skip untyped nil arguments, so `Execute`
  returns no error and the action contributes the empty string. -/

/-- Identifier characters of a Go template field name. -/
def isIdentChar (c : Char) : Bool :=
  c.isAlpha || c.isDigit || c == '_'

/-- A parsed template node: literal characters or a field reference. -/
inductive Tok where
  | lit : List Char → Tok
  | ref : String → Tok
deriving DecidableEq, Repr

/-- Lexer state while scanning a template. -/
inductive TmMode where
  | text : TmMode
  | sawL : TmMode
  | actDot : TmMode
  | actName : List Char → TmMode
  | actSpace : List Char → TmMode
  | actR1 : List Char → TmMode

/-- Character-by-character scan of a template. `none` is a parse error. -/
def runTmpl : TmMode → List Char → Option (List Tok)
  | TmMode.text, [] => some []
  | TmMode.sawL, [] => some [Tok.lit ['\x7b']]
  | TmMode.actDot, [] => none
  | TmMode.actName _, [] => none
  | TmMode.actSpace _, [] => none
  | TmMode.actR1 _, [] => none
  | TmMode.text, c :: rest =>
    if c = '\x7b' then runTmpl TmMode.sawL rest
    else (runTmpl TmMode.text rest).map (fun ts => Tok.lit [c] :: ts)
  | TmMode.sawL, c :: rest =>
    if c = '\x7b' then runTmpl TmMode.actDot rest
    else (runTmpl TmMode.text rest).map (fun ts => Tok.lit ['\x7b', c] :: ts)
  | TmMode.actDot, c :: rest =>
    if c = ' ' ∨ c = '\t' then runTmpl TmMode.actDot rest
    else if c = '.' then runTmpl (TmMode.actName []) rest
    else none
  | TmMode.actName acc, c :: rest =>
    if isIdentChar c then runTmpl (TmMode.actName (acc ++ [c])) rest
    else if acc = [] then none
    else if c = ' ' ∨ c = '\t' then runTmpl (TmMode.actSpace acc) rest
    else if c = '\x7d' then runTmpl (TmMode.actR1 acc) rest
    else none
  | TmMode.actSpace name, c :: rest =>
    if c = ' ' ∨ c = '\t' then runTmpl (TmMode.actSpace name) rest
    else if c = '\x7d' then runTmpl (TmMode.actR1 name) rest
    else none
  | TmMode.actR1 name, c :: rest =>
    if c = '\x7d' then (runTmpl TmMode.text rest).map (fun ts => Tok.ref name.asString :: ts)
    else none

def tokenize (cs : List Char) : Option (List Tok) :=
  runTmpl TmMode.text cs

/-- html/template text-context escaping of one character. -/
def escChar (c : Char) : List Char :=
  if c = '&' then "&amp;".data
  else if c = '<' then "&lt;".data
  else if c = '>' then "&gt;".data
  else if c = '"' then "&#34;".data
  else if c = '\'' then "&#39;".data
  else if c = '\x00' then "�".data
  else [c]

def htmlEscapeList (cs : List Char) : List Char :=
  (cs.map escChar).flatten

/-- First binding of a name in the variable list (Go map lookup; the list
is ordered so that earlier bindings shadow later ones). -/
def lookupVar (vars : List (String × String)) (n : String) : Option String :=
  ((vars.find? (fun p => p.1 == n)).map (·.2))

def evalTok (vars : List (String × String)) : Tok → List Char
  | Tok.lit cs => cs
  | Tok.ref n =>
    match lookupVar vars n with
    | some v => htmlEscapeList v.data
    | none => []

/-- `evaluateFromTemplate` (src/main.go:135-148): parse, then execute
against the variable map. A parse failure is returned as an error; a
missing variable is not an error (see module comment above). -/
def evaluateFromTemplate (tmpl : String) (vars : List (String × String)) :
    Except String String :=
  match tokenize tmpl.data with
  | none => Except.error "template parse error"
  | some ts => Except.ok ((ts.map (evalTok vars)).flatten.asString)

/-! ### `computeArch` and `main` -/

/-- Host environment: `runtime.GOARCH`, `runtime.GOOS`, and the lines of
`/proc/cpuinfo` (`none` when the file cannot be opened). -/
structure HostEnv where
  goarch : String
  goos : String
  cpuinfo : Option (List String)
deriving Repr

/-- Result of `computeArch`: a value, a `log.Fatalf` exit, or a Go panic
(the `parts[1]` index when a `CPU architecture` line has no colon). -/
inductive ArchResult where
  | ok : String → ArchResult
  | fatal : String → ArchResult
  | panicked : ArchResult
deriving DecidableEq, Repr

/-- Go `unicode.IsSpace` on the ASCII range trimmed by
`strings.TrimSpace`. -/
def isSpaceCut (c : Char) : Bool :=
  c = ' ' || (9 ≤ c.toNat && c.toNat ≤ 13)

/-- Go `strings.TrimSpace`. -/
def trimSpace (s : String) : String :=
  ⟨((s.data.dropWhile isSpaceCut).reverse.dropWhile isSpaceCut).reverse⟩

/-- The `/proc/cpuinfo` scan of `computeArch` (src/main.go:112-127): the
first line starting with `CPU architecture` decides; `7`/`6` (after
trimming the text right of the colon) give `armv7`/`armv6`, anything else
is fatal; exhausting the lines without such a line is fatal. A matching
line with no colon would make Go index `parts[1]` out of range: a panic. -/
def computeArchLines : List String → ArchResult
  | [] => ArchResult.fatal "E! Unable to locate CPU architecture"
  | l :: rest =>
    if "CPU architecture".data.isPrefixOf l.data then
      match ((splitChar ':' l.data).map List.asString).drop 1 with
      | [] => ArchResult.panicked
      | p1 :: _ =>
        if trimSpace p1 = "7" then ArchResult.ok "armv7"
        else if trimSpace p1 = "6" then ArchResult.ok "armv6"
        else ArchResult.fatal ("E! Unknown ARM CPU architecture: " ++ p1)
    else computeArchLines rest

/-- `computeArch` (src/main.go:102-133): every architecture except `arm`
is returned as-is; on `arm` the variant is probed from `/proc/cpuinfo`,
and failure to open or to decide is fatal. -/
def computeArch (env : HostEnv) : ArchResult :=
  if env.goarch = "arm" then
    match env.cpuinfo with
    | none => ArchResult.fatal "E! Failed to read cpuinfo"
    | some lines => computeArchLines lines
  else ArchResult.ok env.goarch

/-- The parsed command line (the `args` struct, src/main.go:29-36).
`fromArg` is the Go field `From` (`from` is reserved in Lean);
`varArg` the user `--var` bindings. -/
structure Args where
  fromArg : String
  varArg : List (String × String)
  file : String
  toDir : String
  mkdirs : Bool
  version : Bool
deriving Repr

/-- The single HTTP GET: a response with status code, status line and body,
or a connection error. -/
inductive HttpResult where
  | resp : Nat → String → GzTarStream → HttpResult
  | connError : String → HttpResult
deriving Repr

/-- Observable outcome of one invocation of `main`. -/
inductive MainOutcome where
  | versionExit : MainOutcome
  | usageExit : MainOutcome
  | fatalExit : String → MainOutcome
  | success : FS → String → MainOutcome
  | panicked : MainOutcome
deriving DecidableEq, Repr

/-- The variable map: implicit `arch`/`os` entries overlaid by the user
`--var` bindings (user bindings shadow the implicit ones). -/
def mkVars (arch osName : String) (user : List (String × String)) :
    List (String × String) :=
  user ++ [("arch", arch), ("os", osName)]

def FS.mkdirAll (fs : FS) (p : String) : FS :=
  { fs with dirs := pathClean p :: fs.dirs }

/-- Lift the extraction outcome into `main`'s outcome: success logs the
output path, an error is `log.Fatalf("E! %v", err)`. -/
def liftProc : ProcOutcome → MainOutcome
  | ProcOutcome.ok fs p => MainOutcome.success fs p
  | ProcOutcome.err e => MainOutcome.fatalExit ("E! " ++ e.message)
  | ProcOutcome.panicked => MainOutcome.panicked

/-- `main` (src/main.go:38-100), in the order of the source: `computeArch`
runs while building the implicit variable map, before flags are parsed and
before the `--version` and required-flag checks; then the `from` template
is resolved, the suffix classifier gates the download, `--mkdirs`
optionally creates the destination, and a `200` response body is handed to
`processTarGz` while any other status is fatal. Flag parsing itself and
the TLS client construction are assumed to succeed (their failures are
plain `log.Fatal`s before any step modelled by the claims). -/
def mainModel (env : HostEnv) (a : Args) (r : HttpResult) (fs : FS) : MainOutcome :=
  match computeArch env with
  | ArchResult.panicked => MainOutcome.panicked
  | ArchResult.fatal m => MainOutcome.fatalExit m
  | ArchResult.ok arch =>
    let vars := mkVars arch env.goos a.varArg
    if a.version then MainOutcome.versionExit
    else if a.fromArg = "" ∨ a.file = "" then MainOutcome.usageExit
    else
      match evaluateFromTemplate a.fromArg vars with
      | Except.error m => MainOutcome.fatalExit ("failed to evaluate from: " ++ m)
      | Except.ok fromUrl =>
        if isTarGz fromUrl = false then
          MainOutcome.fatalExit
            "Only supports processing tar-gzipped files with tar.gz or tgz suffix"
        else
          let fs1 := if a.mkdirs then FS.mkdirAll fs a.toDir else fs
          match r with
          | HttpResult.connError m => MainOutcome.fatalExit m
          | HttpResult.resp statusCode statusLine body =>
            if statusCode = 200 then
              liftProc (processTarGz fs1 body a.file a.toDir)
            else
              MainOutcome.fatalExit ("E! Failed to retrieve archive: " ++ statusLine)

/-! ### Helper lemmas about the scan and the materializer -/

theorem scanTar_append_of_not_found (pre rest : List TarEntry) (file : String)
    (h : ∀ e ∈ pre, e.header.name ≠ file) :
    scanTar (pre ++ rest) file = scanTar rest file := by
  induction pre with
  | nil => rfl
  | cons a pre ih =>
    have ha : a.header.name ≠ file := h a (List.mem_cons_self a pre)
    simp only [List.cons_append, scanTar, if_neg ha]
    exact ih (fun e he => h e (List.mem_cons_of_mem a he))

theorem scanTar_cons_match (e : TarEntry) (rest : List TarEntry) (file : String)
    (h : e.header.name = file) : scanTar (e :: rest) file = some e := by
  simp [scanTar, h]

theorem scanTar_eq_none (entries : List TarEntry) (file : String)
    (h : ∀ e ∈ entries, e.header.name ≠ file) : scanTar entries file = none := by
  induction entries with
  | nil => rfl
  | cons a l ih =>
    simp only [scanTar, if_neg (h a (List.mem_cons_self a l))]
    exact ih (fun e he => h e (List.mem_cons_of_mem a he))

theorem processTarGz_of_scan (fs : FS) (entries : List TarEntry) (t : TarTerm)
    (file toDir : String) (e : TarEntry) (h : scanTar entries file = some e) :
    processTarGz fs ⟨none, entries, t⟩ file toDir =
      match extractExe fs e.content file toDir e.header.mode with
      | Except.ok (fs1, p) => ProcOutcome.ok fs1 p
      | Except.error pe => ProcOutcome.err pe := by
  simp only [processTarGz, h]

theorem extractExe_fresh (fs : FS) (content : List Nat) (filename toDir : String) (m : Nat)
    (h1 : fs.dirs.contains (pathJoin toDir (pathBase filename)) = false)
    (h2 : fs.lookupFile (pathJoin toDir (pathBase filename)) = none)
    (h3 : fs.dirs.contains (pathDir (pathJoin toDir (pathBase filename))) = true) :
    extractExe fs content filename toDir m =
      Except.ok (fs.setFile (pathJoin toDir (pathBase filename)) ⟨content, m % 4096⟩,
        pathJoin toDir (pathBase filename)) := by
  simp only [extractExe]
  rw [h1, h2, h3]
  simp

theorem extractExe_existing (fs : FS) (content : List Nat) (filename toDir : String) (m : Nat)
    (st : FileState)
    (h1 : fs.dirs.contains (pathJoin toDir (pathBase filename)) = false)
    (h2 : fs.lookupFile (pathJoin toDir (pathBase filename)) = some st) :
    extractExe fs content filename toDir m =
      Except.ok (fs.setFile (pathJoin toDir (pathBase filename))
          ⟨writeFromStart st.content content, st.mode⟩,
        pathJoin toDir (pathBase filename)) := by
  simp only [extractExe]
  rw [h1, h2]
  simp

theorem extractExe_missing_dir (fs : FS) (content : List Nat) (filename toDir : String) (m : Nat)
    (h1 : fs.dirs.contains (pathJoin toDir (pathBase filename)) = false)
    (h2 : fs.lookupFile (pathJoin toDir (pathBase filename)) = none)
    (h3 : fs.dirs.contains (pathDir (pathJoin toDir (pathBase filename))) = false) :
    extractExe fs content filename toDir m =
      Except.error (ProcError.ioError "no such file or directory") := by
  simp only [extractExe]
  rw [h1, h2, h3]
  simp

/-! ### Claims -/

/-- Claim C1: on a stream whose gzip envelope is readable, `processTarGz`
scans tar headers sequentially in archive order and compares each recorded
name to the requested entry path by exact, case-sensitive string equality.
The first match alone decides the outcome — entries and stream state past
it are irrelevant (the scan stops there) — and what gets materialized is
that entry's full data content under its header's permission bits. A clean
logical end of stream (`io.EOF`) with no match yields the not-found error,
not a crash and not an empty success. -/
theorem c1_scan_first_match_or_notFound (fs : FS) (file toDir : String) :
    (∀ (pre post post2 : List TarEntry) (e : TarEntry) (t t2 : TarTerm),
      (∀ x ∈ pre, x.header.name ≠ file) → e.header.name = file →
      processTarGz fs ⟨none, pre ++ e :: post, t⟩ file toDir =
        processTarGz fs ⟨none, pre ++ e :: post2, t2⟩ file toDir) ∧
    (∀ (pre post : List TarEntry) (e : TarEntry) (t : TarTerm),
      (∀ x ∈ pre, x.header.name ≠ file) → e.header.name = file →
      fs.dirs.contains (pathJoin toDir (pathBase file)) = false →
      fs.lookupFile (pathJoin toDir (pathBase file)) = none →
      fs.dirs.contains (pathDir (pathJoin toDir (pathBase file))) = true →
      processTarGz fs ⟨none, pre ++ e :: post, t⟩ file toDir =
        ProcOutcome.ok
          (fs.setFile (pathJoin toDir (pathBase file)) ⟨e.content, e.header.mode % 4096⟩)
          (pathJoin toDir (pathBase file))) ∧
    (∀ entries : List TarEntry,
      (∀ x ∈ entries, x.header.name ≠ file) →
      processTarGz fs ⟨none, entries, TarTerm.eof⟩ file toDir =
        ProcOutcome.err ProcError.notFound) := by
  refine ⟨?_, ?_, ?_⟩
  · intro pre post post2 e t t2 hpre he
    rw [processTarGz_of_scan fs _ t file toDir e
          (by rw [scanTar_append_of_not_found pre _ file hpre]
              exact scanTar_cons_match e post file he),
        processTarGz_of_scan fs _ t2 file toDir e
          (by rw [scanTar_append_of_not_found pre _ file hpre]
              exact scanTar_cons_match e post2 file he)]
  · intro pre post e t hpre he h1 h2 h3
    rw [processTarGz_of_scan fs _ t file toDir e
          (by rw [scanTar_append_of_not_found pre _ file hpre]
              exact scanTar_cons_match e post file he),
        extractExe_fresh fs e.content file toDir e.header.mode h1 h2 h3]
  · intro entries hnone
    simp only [processTarGz, scanTar_eq_none entries file hnone]

theorem c1_scan_first_match_or_notFound_witness :
    processTarGz ⟨["/out"], []⟩
        ⟨none, [⟨⟨"bin/app", 493, '0'⟩, [2, 3]⟩], TarTerm.eof⟩ "bin/app" "/out" =
      ProcOutcome.ok ⟨["/out"], [("/out/app", ⟨[2, 3], 493⟩)]⟩ "/out/app" := by
  have h := (c1_scan_first_match_or_notFound ⟨["/out"], []⟩ "bin/app" "/out").2.1
      [] [] ⟨⟨"bin/app", 493, '0'⟩, [2, 3]⟩ TarTerm.eof
      (by intro x hx; cases hx) rfl (by rfl) (by rfl) (by rfl)
  exact h.trans rfl

/-- Claim C2 (code bug): the claim says every truncated or corrupted
envelope/container yields a `FormatError` and never a crash. The code
wraps only the `gzip.NewReader` failure that way; when the tar container
is corrupt after a valid gzip header, `tarReader.Next` returns a
non-`io.EOF` error with a nil header, the loop still reads `header.Name`,
and the process panics on the nil dereference. -/
theorem c2_corrupt_tar_panics :
    processTarGz ⟨["/out"], []⟩
        ⟨none, [], TarTerm.errOther "archive/tar: invalid tar header"⟩ "app" "/out" =
      ProcOutcome.panicked ∧
    processTarGz ⟨["/out"], []⟩
        ⟨some "gzip: invalid header", [], TarTerm.eof⟩ "app" "/out" =
      ProcOutcome.err (ProcError.formatError "gzip: invalid header") :=
  ⟨rfl, rfl⟩

/-- Claim C9: the entry match never consults the entry's type flag — for
two streams differing only in the type flag of the first matching entry
the outcome is identical, and a directory (or any non-regular) entry whose
name equals the requested path is selected and materialized with that
header's recorded permission bits rather than skipped or rejected. -/
theorem c9_typeflag_not_consulted (fs : FS) (file toDir : String) :
    (∀ (pre post : List TarEntry) (t : TarTerm) (mode : Nat) (content : List Nat)
        (tf1 tf2 : Char),
      (∀ x ∈ pre, x.header.name ≠ file) →
      processTarGz fs ⟨none, pre ++ ⟨⟨file, mode, tf1⟩, content⟩ :: post, t⟩ file toDir =
        processTarGz fs ⟨none, pre ++ ⟨⟨file, mode, tf2⟩, content⟩ :: post, t⟩ file toDir) ∧
    (∀ (pre post : List TarEntry) (t : TarTerm) (mode : Nat) (content : List Nat) (tf : Char),
      (∀ x ∈ pre, x.header.name ≠ file) →
      fs.dirs.contains (pathJoin toDir (pathBase file)) = false →
      fs.lookupFile (pathJoin toDir (pathBase file)) = none →
      fs.dirs.contains (pathDir (pathJoin toDir (pathBase file))) = true →
      processTarGz fs ⟨none, pre ++ ⟨⟨file, mode, tf⟩, content⟩ :: post, t⟩ file toDir =
        ProcOutcome.ok
          (fs.setFile (pathJoin toDir (pathBase file)) ⟨content, mode % 4096⟩)
          (pathJoin toDir (pathBase file))) := by
  constructor
  · intro pre post t mode content tf1 tf2 hpre
    rw [processTarGz_of_scan fs _ t file toDir ⟨⟨file, mode, tf1⟩, content⟩
          (by rw [scanTar_append_of_not_found pre _ file hpre]
              exact scanTar_cons_match _ post file rfl),
        processTarGz_of_scan fs _ t file toDir ⟨⟨file, mode, tf2⟩, content⟩
          (by rw [scanTar_append_of_not_found pre _ file hpre]
              exact scanTar_cons_match _ post file rfl)]
  · intro pre post t mode content tf hpre h1 h2 h3
    rw [processTarGz_of_scan fs _ t file toDir ⟨⟨file, mode, tf⟩, content⟩
          (by rw [scanTar_append_of_not_found pre _ file hpre]
              exact scanTar_cons_match _ post file rfl),
        extractExe_fresh fs content file toDir mode h1 h2 h3]

theorem c9_typeflag_not_consulted_witness :
    processTarGz ⟨["/out"], []⟩
        ⟨none, [⟨⟨"bin/app", 509, '5'⟩, []⟩], TarTerm.eof⟩ "bin/app" "/out" =
      ProcOutcome.ok ⟨["/out"], [("/out/app", ⟨[], 509⟩)]⟩ "/out/app" := by
  have h := (c9_typeflag_not_consulted ⟨["/out"], []⟩ "bin/app" "/out").2
      [] [] TarTerm.eof 509 [] '5'
      (by intro x hx; cases hx) (by rfl) (by rfl) (by rfl)
  exact h.trans rfl

/-- Claim C10: `computeArch` runs while the implicit `arch` variable is
computed, before flag parsing and before the `--version` and
required-flag checks; a fatal architecture probe (ARM variant not
determinable) therefore ends every invocation, whatever the command line
says. -/
theorem c10_arch_fatal_preempts (env : HostEnv) (a : Args) (r : HttpResult) (fs : FS)
    (m : String) (h : computeArch env = ArchResult.fatal m) :
    mainModel env a r fs = MainOutcome.fatalExit m := by
  simp [mainModel, h]

/-! ### Helper lemmas about the template scanner -/

theorem runTmpl_text_append_lit (cs rest : List Char) (h : ∀ c ∈ cs, c ≠ '\x7b') :
    runTmpl TmMode.text (cs ++ rest) =
      (runTmpl TmMode.text rest).map (fun ts => cs.map (fun c => Tok.lit [c]) ++ ts) := by
  induction cs with
  | nil =>
    simp only [List.nil_append, List.map_nil]
    cases runTmpl TmMode.text rest <;> simp
  | cons c cs ih =>
    have hc : c ≠ '\x7b' := h c (List.mem_cons_self c cs)
    simp only [List.cons_append, runTmpl, if_neg hc, List.append_eq]
    rw [ih (fun x hx => h x (List.mem_cons_of_mem c hx))]
    cases runTmpl TmMode.text rest <;> simp

theorem runTmpl_text_all_lit (cs : List Char) (h : ∀ c ∈ cs, c ≠ '\x7b') :
    runTmpl TmMode.text cs = some (cs.map (fun c => Tok.lit [c])) := by
  have h0 := runTmpl_text_append_lit cs [] h
  simpa [runTmpl] using h0

theorem runTmpl_actName_steps (n : List Char) :
    ∀ (acc rest : List Char), (∀ c ∈ n, isIdentChar c = true) → (acc ≠ [] ∨ n ≠ []) →
    runTmpl (TmMode.actName acc) (n ++ '\x7d' :: '\x7d' :: rest) =
      (runTmpl TmMode.text rest).map (fun ts => Tok.ref (acc ++ n).asString :: ts) := by
  induction n with
  | nil =>
    intro acc rest _ hne
    have hacc : acc ≠ [] := by
      rcases hne with h | h
      · exact h
      · exact absurd rfl h
    have hni : isIdentChar '\x7d' = false := rfl
    simp [runTmpl, hni, hacc]
  | cons c n ih =>
    intro acc rest hid hne
    have hc : isIdentChar c = true := hid c (List.mem_cons_self c n)
    simp only [List.cons_append, runTmpl, if_pos hc, List.append_eq]
    rw [ih (acc ++ [c]) rest (fun x hx => hid x (List.mem_cons_of_mem c hx))
          (Or.inl (by simp))]
    simp [List.append_assoc]

theorem runTmpl_action (n rest : List Char) (hn : n ≠ [])
    (hid : ∀ c ∈ n, isIdentChar c = true) :
    runTmpl TmMode.text ('\x7b' :: '\x7b' :: '.' :: (n ++ '\x7d' :: '\x7d' :: rest)) =
      (runTmpl TmMode.text rest).map (fun ts => Tok.ref n.asString :: ts) := by
  have h1 : runTmpl TmMode.text ('\x7b' :: '\x7b' :: '.' :: (n ++ '\x7d' :: '\x7d' :: rest)) =
      runTmpl (TmMode.actName []) (n ++ '\x7d' :: '\x7d' :: rest) := by
    simp [runTmpl]
  rw [h1, runTmpl_actName_steps n [] rest hid (Or.inr hn)]
  simp

theorem flatten_map_singleton (s : List Char) : (s.map (fun c => [c])).flatten = s := by
  induction s with
  | nil => rfl
  | cons c cs ih => simp [ih]

theorem flatten_map_evalTok_lit (vars : List (String × String)) (s : List Char) :
    ((s.map (fun c => evalTok vars (Tok.lit [c]))).flatten) = s :=
  flatten_map_singleton s

theorem evaluateFromTemplate_single_action (s1 n s2 : List Char)
    (vars : List (String × String))
    (h1 : ∀ c ∈ s1, c ≠ '\x7b') (h2 : ∀ c ∈ s2, c ≠ '\x7b')
    (hn : n ≠ []) (hid : ∀ c ∈ n, isIdentChar c = true) :
    evaluateFromTemplate
        ((s1 ++ '\x7b' :: '\x7b' :: '.' :: (n ++ '\x7d' :: '\x7d' :: s2)).asString) vars =
      Except.ok ((s1 ++ evalTok vars (Tok.ref n.asString) ++ s2).asString) := by
  unfold evaluateFromTemplate tokenize
  rw [show ((s1 ++ '\x7b' :: '\x7b' :: '.' :: (n ++ '\x7d' :: '\x7d' :: s2)).asString).data
        = s1 ++ '\x7b' :: '\x7b' :: '.' :: (n ++ '\x7d' :: '\x7d' :: s2) from rfl,
      runTmpl_text_append_lit s1 _ h1, runTmpl_action n s2 hn hid,
      runTmpl_text_all_lit s2 h2]
  simp [List.map_append, List.flatten_append, Function.comp_def, flatten_map_evalTok_lit]

theorem c10_arch_fatal_preempts_witness :
    mainModel ⟨"arm", "linux", some ["model name : x"]⟩
        ⟨"", [], "", "/usr/local/bin", false, true⟩ (HttpResult.connError "no network")
        ⟨[], []⟩ =
      MainOutcome.fatalExit "E! Unable to locate CPU architecture" :=
  c10_arch_fatal_preempts _ _ _ _ _ (by rfl)

/-- Claim C3 counterexample: a URL ending in `.zip` does not classify as a
supported kind — the program has no zip extractor; `main` rejects the URL
with the unsupported-format fatal error even when the response would be a
perfectly good archive containing the requested entry. -/
theorem c3_zip_url_rejected :
    isTarGz "https://example.com/app.zip" = false ∧
    mainModel ⟨"amd64", "linux", none⟩
        ⟨"https://example.com/app.zip", [], "app", "/out", false, false⟩
        (HttpResult.resp 200 "200 OK" ⟨none, [⟨⟨"app", 493, '0'⟩, [1]⟩], TarTerm.eof⟩)
        ⟨["/out"], []⟩ =
      MainOutcome.fatalExit
        "Only supports processing tar-gzipped files with tar.gz or tgz suffix" :=
  ⟨rfl, rfl⟩

/-- Claim C3 (corrected): classification is case-insensitive suffix
matching that accepts exactly `.tar.gz` and `.tgz` — completeness: a URL
classifies as TarGzip only when its lowercased form ends in one of those
two suffixes, so every URL with any other suffix (`.zip`, `.gz`, `.rar`,
...) fails classification — and `main` then exits with the
unsupported-format error before any network or archive work. -/
theorem c3_suffix_classifier :
    (∀ url : String, hasSuffix (toLowerStr url) ".tar.gz" = true → isTarGz url = true) ∧
    (∀ url : String, hasSuffix (toLowerStr url) ".tgz" = true → isTarGz url = true) ∧
    (∀ url : String, hasSuffix (toLowerStr url) ".zip" = true → isTarGz url = false) ∧
    (∀ url : String, isTarGz url = true →
      hasSuffix (toLowerStr url) ".tar.gz" = true ∨
      hasSuffix (toLowerStr url) ".tgz" = true) ∧
    (∀ (env : HostEnv) (a : Args) (r : HttpResult) (fs : FS) (arch url : String),
      computeArch env = ArchResult.ok arch → a.version = false →
      a.fromArg ≠ "" → a.file ≠ "" →
      evaluateFromTemplate a.fromArg (mkVars arch env.goos a.varArg) = Except.ok url →
      isTarGz url = false →
      mainModel env a r fs =
        MainOutcome.fatalExit
          "Only supports processing tar-gzipped files with tar.gz or tgz suffix") := by
  refine ⟨?_, ?_, ?_, ?_, ?_⟩
  · intro url h
    simp [isTarGz, h]
  · intro url h
    simp [isTarGz, h]
  · intro url h
    have a1 : ".zip".data <:+ (toLowerStr url).data := by
      simpa [hasSuffix] using h
    cases htg : hasSuffix (toLowerStr url) ".tar.gz" with
    | true =>
      exfalso
      have a2 : ".tar.gz".data <:+ (toLowerStr url).data := by
        simpa [hasSuffix] using htg
      rcases List.suffix_or_suffix_of_suffix a1 a2 with hs | hs
      · exact absurd hs (by decide)
      · exact absurd hs (by decide)
    | false =>
      cases htgz : hasSuffix (toLowerStr url) ".tgz" with
      | true =>
        exfalso
        have a2 : ".tgz".data <:+ (toLowerStr url).data := by
          simpa [hasSuffix] using htgz
        rcases List.suffix_or_suffix_of_suffix a1 a2 with hs | hs
        · exact absurd hs (by decide)
        · exact absurd hs (by decide)
      | false => simp [isTarGz, htg, htgz]
  · intro url h
    simpa [isTarGz] using h
  · intro env a r fs arch url h1 h2 h3 h4 h5 h6
    simp [mainModel, h1, h2, h3, h4, h5, h6]

theorem c3_suffix_classifier_witness :
    isTarGz "https://e/app.ZIP" = false ∧
    mainModel ⟨"amd64", "linux", none⟩
        ⟨"https://e/app.ZIP", [], "app", "/out", false, false⟩
        (HttpResult.resp 200 "200 OK" ⟨none, [], TarTerm.eof⟩) ⟨["/out"], []⟩ =
      MainOutcome.fatalExit
        "Only supports processing tar-gzipped files with tar.gz or tgz suffix" := by
  constructor
  · exact c3_suffix_classifier.2.2.1 "https://e/app.ZIP" (by rfl)
  · exact c3_suffix_classifier.2.2.2.2 ⟨"amd64", "linux", none⟩
      ⟨"https://e/app.ZIP", [], "app", "/out", false, false⟩
      (HttpResult.resp 200 "200 OK" ⟨none, [], TarTerm.eof⟩) ⟨["/out"], []⟩
      "amd64" "https://e/app.ZIP" rfl rfl (by decide) (by decide) rfl (by rfl)

/-- Claim C4 counterexample: a template referencing a variable absent from
the VariableSet does not fail — Go html/template treats the missing map
key as an untyped nil, the escaper drops it, and `Execute` returns the
output with the action contributing the empty string. -/
theorem c4_missing_variable_no_error :
    evaluateFromTemplate "https://e/app-\x7b\x7b.version\x7d\x7d.tgz"
        [("arch", "amd64"), ("os", "linux")] =
      Except.ok "https://e/app-.tgz" := rfl

/-- Claim C4 (corrected): substitution either produces the substituted
string or fails with a template error on malformed syntax (for instance an
unterminated action); a `\x7b\x7b.name\x7d\x7d` action whose name is bound
inserts the (HTML-escaped) value, but an action whose name is absent from
the VariableSet is not an error — it substitutes the empty string. -/
theorem c4_template_substitution (s1 n s2 : List Char) (v : String)
    (vars : List (String × String))
    (h1 : ∀ c ∈ s1, c ≠ '\x7b') (h2 : ∀ c ∈ s2, c ≠ '\x7b')
    (hn : n ≠ []) (hid : ∀ c ∈ n, isIdentChar c = true) :
    (lookupVar vars n.asString = some v →
      evaluateFromTemplate
          ((s1 ++ '\x7b' :: '\x7b' :: '.' :: (n ++ '\x7d' :: '\x7d' :: s2)).asString) vars =
        Except.ok ((s1 ++ htmlEscapeList v.data ++ s2).asString)) ∧
    (lookupVar vars n.asString = none →
      evaluateFromTemplate
          ((s1 ++ '\x7b' :: '\x7b' :: '.' :: (n ++ '\x7d' :: '\x7d' :: s2)).asString) vars =
        Except.ok ((s1 ++ s2).asString)) ∧
    evaluateFromTemplate ((s1 ++ ['\x7b', '\x7b']).asString) vars =
      Except.error "template parse error" := by
  refine ⟨?_, ?_, ?_⟩
  · intro hv
    rw [evaluateFromTemplate_single_action s1 n s2 vars h1 h2 hn hid]
    simp [evalTok, hv]
  · intro hv
    rw [evaluateFromTemplate_single_action s1 n s2 vars h1 h2 hn hid]
    simp [evalTok, hv]
  · unfold evaluateFromTemplate tokenize
    rw [show ((s1 ++ ['\x7b', '\x7b']).asString).data = s1 ++ ['\x7b', '\x7b'] from rfl,
        runTmpl_text_append_lit s1 _ h1]
    simp [runTmpl]

theorem c4_template_substitution_witness :
    evaluateFromTemplate "a-\x7b\x7b.w\x7d\x7d.tgz" [("v", "1.0")] = Except.ok "a-.tgz" ∧
    evaluateFromTemplate "a-\x7b\x7b.v\x7d\x7d.tgz" [("v", "1.0")] = Except.ok "a-1.0.tgz" := by
  constructor
  · exact (c4_template_substitution "a-".data "w".data ".tgz".data "1.0" [("v", "1.0")]
      (by decide) (by decide) (by decide) (by decide)).2.1 rfl
  · exact (c4_template_substitution "a-".data "v".data ".tgz".data "1.0" [("v", "1.0")]
      (by decide) (by decide) (by decide) (by decide)).1 rfl

/-- Claim C5 counterexample: the `--file` entry-path template is not
resolved against the VariableSet. Substitution of `a-\x7b\x7b.v\x7d\x7d`
would yield `a-1.0`, the archive contains exactly that entry, yet the run
fails not-found because the raw template text is compared against entry
names verbatim. -/
theorem c5_file_template_not_resolved :
    evaluateFromTemplate "a-\x7b\x7b.v\x7d\x7d" (mkVars "amd64" "linux" [("v", "1.0")]) =
      Except.ok "a-1.0" ∧
    mainModel ⟨"amd64", "linux", none⟩
        ⟨"https://e/a.tgz", [("v", "1.0")], "a-\x7b\x7b.v\x7d\x7d", "/out", false, false⟩
        (HttpResult.resp 200 "200 OK"
          ⟨none, [⟨⟨"a-1.0", 493, '0'⟩, [1, 2]⟩], TarTerm.eof⟩)
        ⟨["/out"], []⟩ =
      MainOutcome.fatalExit "E! unable to find requested file in archive" :=
  ⟨rfl, rfl⟩

/-- Claim C5 (corrected): variable substitution is applied to the
source-URL template only — the resolved URL is what the classifier gates
on — while the in-archive entry path is handed to the extraction engine
verbatim, without substitution; both are pure functions of their
inputs. -/
theorem c5_substitution_only_from (env : HostEnv) (a : Args) (fs : FS)
    (arch url statusLine : String) (body : GzTarStream)
    (h1 : computeArch env = ArchResult.ok arch)
    (h2 : a.version = false) (h3 : a.fromArg ≠ "") (h4 : a.file ≠ "")
    (h5 : evaluateFromTemplate a.fromArg (mkVars arch env.goos a.varArg) = Except.ok url)
    (h6 : isTarGz url = true) (h7 : a.mkdirs = false) :
    mainModel env a (HttpResult.resp 200 statusLine body) fs =
      liftProc (processTarGz fs body a.file a.toDir) := by
  simp [mainModel, h1, h2, h3, h4, h5, h6, h7]

theorem c5_substitution_only_from_witness :
    mainModel ⟨"amd64", "linux", none⟩
        ⟨"https://e/a.tgz", [("v", "1.0")], "a-\x7b\x7b.v\x7d\x7d", "/out", false, false⟩
        (HttpResult.resp 200 "200 OK"
          ⟨none, [⟨⟨"a-\x7b\x7b.v\x7d\x7d", 493, '0'⟩, [5]⟩], TarTerm.eof⟩)
        ⟨["/out"], []⟩ =
      liftProc (processTarGz ⟨["/out"], []⟩
        ⟨none, [⟨⟨"a-\x7b\x7b.v\x7d\x7d", 493, '0'⟩, [5]⟩], TarTerm.eof⟩
        "a-\x7b\x7b.v\x7d\x7d" "/out") :=
  c5_substitution_only_from ⟨"amd64", "linux", none⟩
    ⟨"https://e/a.tgz", [("v", "1.0")], "a-\x7b\x7b.v\x7d\x7d", "/out", false, false⟩
    ⟨["/out"], []⟩ "amd64" "https://e/a.tgz" "200 OK"
    ⟨none, [⟨⟨"a-\x7b\x7b.v\x7d\x7d", 493, '0'⟩, [5]⟩], TarTerm.eof⟩
    rfl rfl (by decide) (by decide) rfl rfl rfl

/-- Claim C6 counterexample: a `204 No Content` response is a success
(2xx) status, and its body here is a well-formed archive containing the
requested entry; the code nevertheless exits fatally, because only status
exactly 200 is accepted. -/
theorem c6_2xx_not_handed_to_extraction :
    mainModel ⟨"amd64", "linux", none⟩
        ⟨"https://e/a.tgz", [], "app", "/out", false, false⟩
        (HttpResult.resp 204 "204 No Content"
          ⟨none, [⟨⟨"app", 493, '0'⟩, [1]⟩], TarTerm.eof⟩)
        ⟨["/out"], []⟩ =
      MainOutcome.fatalExit "E! Failed to retrieve archive: 204 No Content" := rfl

/-- Claim C6 (corrected): only a response with status exactly 200 has its
body handed to the extraction engine; every other status — other 2xx
statuses included — is a fatal transport error carrying the status line,
and the body is not parsed (the outcome does not depend on it). -/
theorem c6_status_exactly_200 (env : HostEnv) (a : Args) (fs : FS) (arch url : String)
    (h1 : computeArch env = ArchResult.ok arch)
    (h2 : a.version = false) (h3 : a.fromArg ≠ "") (h4 : a.file ≠ "")
    (h5 : evaluateFromTemplate a.fromArg (mkVars arch env.goos a.varArg) = Except.ok url)
    (h6 : isTarGz url = true) (h7 : a.mkdirs = false) :
    (∀ (statusCode : Nat) (statusLine : String) (body : GzTarStream), statusCode ≠ 200 →
      mainModel env a (HttpResult.resp statusCode statusLine body) fs =
        MainOutcome.fatalExit ("E! Failed to retrieve archive: " ++ statusLine)) ∧
    (∀ (statusLine : String) (body : GzTarStream),
      mainModel env a (HttpResult.resp 200 statusLine body) fs =
        liftProc (processTarGz fs body a.file a.toDir)) := by
  constructor
  · intro statusCode statusLine body hne
    simp [mainModel, h1, h2, h3, h4, h5, h6, h7, hne]
  · intro statusLine body
    simp [mainModel, h1, h2, h3, h4, h5, h6, h7]

theorem c6_status_exactly_200_witness :
    mainModel ⟨"amd64", "linux", none⟩
        ⟨"https://e/a.tgz", [], "app", "/out", false, false⟩
        (HttpResult.resp 500 "500 Internal Server Error" ⟨none, [], TarTerm.eof⟩)
        ⟨["/out"], []⟩ =
      MainOutcome.fatalExit "E! Failed to retrieve archive: 500 Internal Server Error" :=
  (c6_status_exactly_200 ⟨"amd64", "linux", none⟩
      ⟨"https://e/a.tgz", [], "app", "/out", false, false⟩ ⟨["/out"], []⟩
      "amd64" "https://e/a.tgz" rfl rfl (by decide) (by decide) rfl rfl rfl).1
    500 "500 Internal Server Error" ⟨none, [], TarTerm.eof⟩ (by decide)

/-- Claim C7 counterexample: when the output path already exists, the open
(`O_WRONLY|O_CREATE`, no `O_TRUNC`, no chmod of an existing file) keeps the
old mode and the old tail bytes — the materialized file has neither the
entry's exact content nor the archive-recorded mode. -/
theorem c7_existing_file_breaks_roundtrip :
    processTarGz ⟨["/out"], [("/out/app", ⟨[9, 9, 9, 9], 420⟩)]⟩
        ⟨none, [⟨⟨"bin/app", 493, '0'⟩, [1, 2]⟩], TarTerm.eof⟩ "bin/app" "/out" =
      ProcOutcome.ok ⟨["/out"], [("/out/app", ⟨[1, 2, 9, 9], 420⟩)]⟩ "/out/app" ∧
    ([1, 2, 9, 9] ≠ [1, 2] ∧ (420 : Nat) ≠ 493) :=
  ⟨rfl, by decide⟩

/-- Claim C7 (corrected): provided the output path
`join(destinationDir, baseName(entryPath))` does not already exist (and its
parent directory does), the materializer writes exactly the extracted
content there and applies the archive-recorded permission bits; in
particular the tar-gzip round trip for `bin/app`, mode 0755, known content
holds on a fresh destination. -/
theorem c7_materialize_path_content_mode (fs : FS) (file toDir : String)
    (pre post : List TarEntry) (e : TarEntry) (t : TarTerm)
    (hpre : ∀ x ∈ pre, x.header.name ≠ file) (he : e.header.name = file)
    (hd : fs.dirs.contains (pathJoin toDir (pathBase file)) = false)
    (hf : fs.lookupFile (pathJoin toDir (pathBase file)) = none)
    (hp : fs.dirs.contains (pathDir (pathJoin toDir (pathBase file))) = true) :
    processTarGz fs ⟨none, pre ++ e :: post, t⟩ file toDir =
      ProcOutcome.ok
        (fs.setFile (pathJoin toDir (pathBase file)) ⟨e.content, e.header.mode % 4096⟩)
        (pathJoin toDir (pathBase file)) := by
  rw [processTarGz_of_scan fs _ t file toDir e
        (by rw [scanTar_append_of_not_found pre _ file hpre]
            exact scanTar_cons_match e post file he),
      extractExe_fresh fs e.content file toDir e.header.mode hd hf hp]

theorem c7_materialize_path_content_mode_witness :
    processTarGz ⟨["/out"], []⟩
        ⟨none, [⟨⟨"bin/app", 493, '0'⟩, [111, 107]⟩], TarTerm.eof⟩ "bin/app" "/out" =
      ProcOutcome.ok ⟨["/out"], [("/out/app", ⟨[111, 107], 493⟩)]⟩ "/out/app" := by
  have h := c7_materialize_path_content_mode ⟨["/out"], []⟩ "bin/app" "/out" [] []
      ⟨⟨"bin/app", 493, '0'⟩, [111, 107]⟩ TarTerm.eof
      (by intro x hx; cases hx) rfl rfl rfl rfl
  exact h.trans rfl

/-- Claim C8 counterexample: the destination open is not an exclusive
creation — `os.OpenFile` is called with `O_WRONLY|O_CREATE` and no
`O_EXCL`, so opening a path at which a file already exists succeeds
(overwriting it in place) instead of failing. -/
theorem c8_open_not_exclusive :
    extractExe ⟨["/out"], [("/out/app", ⟨[7], 420⟩)]⟩ [1, 2] "bin/app" "/out" 493 =
      Except.ok (⟨["/out"], [("/out/app", ⟨[1, 2], 420⟩)]⟩, "/out/app") := rfl

/-- Claim C8 (corrected): the materializer opens the output path write-only
with create-if-missing semantics, not exclusive creation: an existing file
at the path is opened without error, keeping its mode, and overwritten in
place without truncation; when the file is absent and the destination
directory does not exist (no auto-creation requested), the write fails
immediately. -/
theorem c8_open_create_semantics (fs : FS) (content : List Nat)
    (filename toDir : String) (m : Nat) :
    (∀ st : FileState,
      fs.dirs.contains (pathJoin toDir (pathBase filename)) = false →
      fs.lookupFile (pathJoin toDir (pathBase filename)) = some st →
      extractExe fs content filename toDir m =
        Except.ok (fs.setFile (pathJoin toDir (pathBase filename))
            ⟨writeFromStart st.content content, st.mode⟩,
          pathJoin toDir (pathBase filename))) ∧
    (fs.dirs.contains (pathJoin toDir (pathBase filename)) = false →
      fs.lookupFile (pathJoin toDir (pathBase filename)) = none →
      fs.dirs.contains (pathDir (pathJoin toDir (pathBase filename))) = false →
      extractExe fs content filename toDir m =
        Except.error (ProcError.ioError "no such file or directory")) :=
  ⟨fun st ha hb => extractExe_existing fs content filename toDir m st ha hb,
   fun ha hb hc => extractExe_missing_dir fs content filename toDir m ha hb hc⟩

theorem c8_open_create_semantics_witness :
    extractExe ⟨["/out"], [("/out/app", ⟨[7, 8, 9], 420⟩)]⟩ [1, 2] "bin/app" "/out" 493 =
      Except.ok (⟨["/out"], [("/out/app", ⟨[1, 2, 9], 420⟩)]⟩, "/out/app") ∧
    extractExe ⟨[], []⟩ [1, 2] "bin/app" "/out" 493 =
      Except.error (ProcError.ioError "no such file or directory") := by
  constructor
  · exact ((c8_open_create_semantics ⟨["/out"], [("/out/app", ⟨[7, 8, 9], 420⟩)]⟩ [1, 2]
      "bin/app" "/out" 493).1 ⟨[7, 8, 9], 420⟩ rfl rfl).trans rfl
  · exact (c8_open_create_semantics ⟨[], []⟩ [1, 2] "bin/app" "/out" 493).2 rfl rfl rfl

end EasyAdd
